import Mathlib

/-!
Verification of the tiled-projection core of `pytileproj` (file
`pytileproj/base.py`) against its natural-language specification.

The Python code is shallowly embedded:

* machine integers and Python ints become `ℤ`; Python floor division `//`
  becomes `Int.fdiv` (floor division, matching Python on negatives);
* coordinates that may be non-integral (OGR envelopes, geometry points)
  become `ℚ`, with `pyInt` for Python `int()` (truncation toward zero) and
  `pyRound` for Python `round()` (round half to even);
* code that raises `ValueError` returns `Except String _`;
* the abstract tile-name codec (`_encode_tilename` / `point2tilename` are
  `abc.abstractmethod`s in `base.py`) is modelled by the injective encoding
  that names a tile by its lower-left coordinate pair `(llx, lly) : ℤ × ℤ`;
* the external OGR/osr engines are modelled only where a claim needs them:
  geometries are multipoints (lists of `ℚ` points) and rectangles, and
  reprojection is an arbitrary pointwise map passed as a parameter.
-/

namespace PyTileProj

/-- Python `range(start, stop, step)` (also `np.arange`) for a positive
integer `step`: the elements `start + k * step` for `0 ≤ k < n` with
`n = max 0 ⌈(stop - start) / step⌉`.  `base.py` only ever calls it with a
positive step (a tile size). -/
def pyRange (start stop step : ℤ) : List ℤ :=
  if 0 < step then
    (List.range ((stop - start + step - 1).fdiv step).toNat).map
      (fun (k : ℕ) => start + (k : ℤ) * step)
  else []

/-- Python `int()` on a real value: truncation toward zero. -/
def pyInt (q : ℚ) : ℤ := if q < 0 then ⌈q⌉ else ⌊q⌋

/-- Python `round()` to an integer: round to nearest, ties to even. -/
def pyRound (q : ℚ) : ℤ :=
  if q - ⌊q⌋ = 1 / 2 then (if 2 ∣ ⌊q⌋ then ⌊q⌋ else ⌊q⌋ + 1) else round q

/-- `TPSCoreProperty.__init__`: the record of core parameters shared (by
reference, in Python) between the grid, its subgrids, tiling systems and
tiles.  The resolved `TPSProjection` handle is opaque to every claim, so the
`projection` slot is modelled by an optional identifier. -/
structure TPSCoreProperty where
  tag : String
  projection : Option String
  sampling : ℤ
  tiletype : String
  tile_xsize_m : ℤ
  tile_ysize_m : ℤ
deriving DecidableEq

/-- A `Tile()` object.  `name` is the lower-left pair standing in for the
abstract tile-name string. -/
structure Tile where
  core : TPSCoreProperty
  name : ℤ × ℤ
  typename : String
  llx : ℤ
  lly : ℤ
  x_size_px : ℤ
  y_size_px : ℤ
  subset_px : ℤ × ℤ × ℤ × ℤ
deriving DecidableEq

/-- `Tile.__init__(core, name, xll, yll)`. -/
def Tile.make (core : TPSCoreProperty) (name : ℤ × ℤ) (xll yll : ℤ) : Tile :=
  { core := core
    name := name
    typename := core.tiletype
    llx := xll
    lly := yll
    x_size_px := core.tile_xsize_m.fdiv core.sampling
    y_size_px := core.tile_ysize_m.fdiv core.sampling
    subset_px := (0, 0, core.tile_xsize_m.fdiv core.sampling,
                  core.tile_ysize_m.fdiv core.sampling) }

/-- `Tile.limits_m()`: `(xmin, ymin, xmax, ymax)` of the tile extent. -/
def Tile.limits_m (t : Tile) : ℤ × ℤ × ℤ × ℤ :=
  (t.llx, t.lly, t.llx + t.core.tile_xsize_m, t.lly + t.core.tile_ysize_m)

/-- The GDAL geotransform of `Tile.geotransform()`:
`(llx, sampling, 0, lly + tile_ysize_m, 0, -sampling)`. -/
structure GeoTransform where
  gt0 : ℤ
  gt1 : ℤ
  gt2 : ℤ
  gt3 : ℤ
  gt4 : ℤ
  gt5 : ℤ

/-- `Tile.geotransform()`. -/
def Tile.geotransform (t : Tile) : GeoTransform :=
  { gt0 := t.llx, gt1 := t.core.sampling, gt2 := 0
    gt3 := t.lly + t.core.tile_ysize_m, gt4 := 0, gt5 := -t.core.sampling }

/-- `Tile.ij2xy(i, j)`: `x = gt[0] + i*gt[1] + j*gt[2]`,
`y = gt[3] + i*gt[4] + j*gt[5]`.  The source's `sampling <= 1.0` branch
applies `round(_, precision)` with `precision ≥ 1` decimal digits, which is
the identity on the integer values produced here, so both branches of the
source agree on this embedding's integer inputs. -/
def Tile.ij2xy (t : Tile) (i j : ℤ) : ℤ × ℤ :=
  let g := t.geotransform
  (g.gt0 + i * g.gt1 + j * g.gt2, g.gt3 + i * g.gt4 + j * g.gt5)

/-- `Tile.xy2ij(x, y)`: inverts the geotransform and rounds to the nearest
integer (the source's `int(round(...))` — Python 3 `round` returns an int,
so `int()` is the identity). -/
def Tile.xy2ij (t : Tile) (x y : ℚ) : ℤ × ℤ :=
  let g := t.geotransform
  let gt0 : ℚ := g.gt0
  let gt1 : ℚ := g.gt1
  let gt2 : ℚ := g.gt2
  let gt3 : ℚ := g.gt3
  let gt4 : ℚ := g.gt4
  let gt5 : ℚ := g.gt5
  (pyRound ((-1) * (gt2 * gt3 - gt0 * gt5 + gt5 * x - gt2 * y) /
      (gt2 * gt4 - gt1 * gt5)),
   pyRound ((-1) * ((-1) * gt1 * gt3 + gt0 * gt4 - gt4 * x + gt1 * y) /
      (gt2 * gt4 - gt1 * gt5)))

/-- The `Tile.active_subset_px` property setter.  Python mutates the tile in
place or raises `ValueError`; the embedding returns the updated tile or the
error, the input tile being untouched either way.  The source checks the
four limits in order `xmin, ymin, xmax, ymax` against the upper bounds
`[x_size_px, y_size_px, x_size_px, y_size_px]`, then the two orderings. -/
def Tile.setActiveSubsetPx (t : Tile) (xmin ymin xmax ymax : ℤ) :
    Except String Tile :=
  if xmin < 0 ∨ xmin > t.x_size_px then .error "xmin is out of bounds!"
  else if ymin < 0 ∨ ymin > t.y_size_px then .error "ymin is out of bounds!"
  else if xmax < 0 ∨ xmax > t.x_size_px then .error "xmax is out of bounds!"
  else if ymax < 0 ∨ ymax > t.y_size_px then .error "ymax is out of bounds!"
  else if xmin ≥ xmax then .error "xmin >= xmax!"
  else if ymin ≥ ymax then .error "ymin >= ymax!"
  else .ok { t with subset_px := (xmin, ymin, xmax, ymax) }

/-- A `TilingSystem()`: core record, subgrid origin, and the steps set by
`TilingSystem.__init__` to the core tile sizes. -/
structure TilingSystem where
  core : TPSCoreProperty
  x0 : ℤ
  y0 : ℤ
  xstep : ℤ
  ystep : ℤ
deriving DecidableEq

/-- `TilingSystem.__init__(core, polygon_geog, x0, y0)` (the geometry slots
are external and not used by any claim). -/
def TilingSystem.make (core : TPSCoreProperty) (x0 y0 : ℤ) : TilingSystem :=
  { core := core, x0 := x0, y0 := y0
    xstep := core.tile_xsize_m, ystep := core.tile_ysize_m }

/-- `TilingSystem.round_xy2lowerleft(x, y)`:
`llx = x // tile_xsize_m * tile_xsize_m`, `lly` likewise; the stored origin
`(x0, y0)` is not consulted. -/
def TilingSystem.round_xy2lowerleft (s : TilingSystem) (x y : ℤ) : ℤ × ℤ :=
  (x.fdiv s.core.tile_xsize_m * s.core.tile_xsize_m,
   y.fdiv s.core.tile_ysize_m * s.core.tile_ysize_m)

/-- `TilingSystem.identify_tiles_overlapping_xybbox(bbox)`.  The Python
`np.meshgrid(llxs, llys)` pair of arrays, flattened row-major, enumerates
`(llxs[j], llys[i])` with `i` (over `llys`) outermost; each pair is then
encoded by the abstract `_encode_tilename`, modelled as the pair itself. -/
def TilingSystem.identify_tiles_overlapping_xybbox (s : TilingSystem)
    (xmin ymin xmax ymax : ℤ) : Except String (List (ℤ × ℤ)) :=
  if xmin ≥ xmax ∨ ymin ≥ ymax then
    .error "Check order of coordinates of bbox! Scheme: [xmin, ymin, xmax, ymax]"
  else
    let tsize_x := s.core.tile_xsize_m
    let tsize_y := s.core.tile_ysize_m
    let llxs := pyRange (xmin.fdiv tsize_x * tsize_x)
      (xmax.fdiv tsize_x * tsize_x + 1) tsize_x
    let llys := pyRange (ymin.fdiv tsize_y * tsize_y)
      (ymax.fdiv tsize_y * tsize_y + 1) tsize_y
    .ok (llys.flatMap (fun lly => llxs.map (fun llx => (llx, lly))))

/-- `TilingSystem.create_tile(name=t)`: the concrete subclasses build the
tile at the lower-left coordinates decoded from the name; with names
modelled as lower-left pairs this is `Tile.make` at that pair. -/
def TilingSystem.create_tile (s : TilingSystem) (name : ℤ × ℤ) : Tile :=
  Tile.make s.core name name.1 name.2

/-- One loop iteration of `TilingSystem.create_tiles_overlapping_xybbox`:
clip the tile's default active subset to the bbox and set it (the setter may
raise). -/
def TilingSystem.clipTileToBbox (s : TilingSystem)
    (bx0 by0 bx1 by1 : ℤ) (name : ℤ × ℤ) : Except String Tile :=
  let tile := s.create_tile name
  let le := tile.subset_px.1
  let te := tile.subset_px.2.1
  let re := tile.subset_px.2.2.1
  let be := tile.subset_px.2.2.2
  let e := tile.limits_m
  let le := if e.1 ≤ bx0 then (bx0 - e.1).fdiv tile.core.sampling else le
  let te := if e.2.1 ≤ by0 then (by0 - e.2.1).fdiv tile.core.sampling else te
  let re := if e.2.2.1 > bx1 then
      (bx1 - e.2.2.1 + s.core.tile_xsize_m).fdiv tile.core.sampling else re
  let be := if e.2.2.2 > by1 then
      (by1 - e.2.2.2 + s.core.tile_ysize_m).fdiv tile.core.sampling else be
  tile.setActiveSubsetPx le te re be

/-- `TilingSystem.create_tiles_overlapping_xybbox(bbox)`: one `Tile` per
name from `identify_tiles_overlapping_xybbox`, each with its active subset
clipped to the bbox; a `ValueError` from the subset setter propagates. -/
def TilingSystem.create_tiles_overlapping_xybbox (s : TilingSystem)
    (bx0 by0 bx1 by1 : ℤ) : Except String (List Tile) := do
  let tilenames ← s.identify_tiles_overlapping_xybbox bx0 by0 bx1 by1
  tilenames.mapM (s.clipTileToBbox bx0 by0 bx1 by1)

/-- `GlobalTile.__init__(core, name, bbox_polygon_proj)`: runs
`Tile.__init__(core, name, 0, 0)` and then overwrites `self.core.tiletype`,
`self.core.tile_xsize_m` and `self.core.tile_ysize_m` in place (the record
is shared by reference in Python; the embedding returns the tile holding
the updated record).  `bbox` is `(xmin, xmax, ymin, ymax)` and the sizes
are `np.int(np.floor(max / sampling) * sampling - np.ceil(min / sampling)
* sampling)`, exact on the integer multiples produced. -/
def GlobalTile.make (core : TPSCoreProperty) (name : ℤ × ℤ)
    (bxmin bxmax bymin bymax : ℚ) : Tile :=
  let base := Tile.make core name 0 0
  let s : ℚ := core.sampling
  let xsz : ℤ := ⌊bxmax / s⌋ * core.sampling - ⌈bxmin / s⌉ * core.sampling
  let ysz : ℤ := ⌊bymax / s⌋ * core.sampling - ⌈bymin / s⌉ * core.sampling
  let core2 : TPSCoreProperty :=
    { core with
      tiletype := "TG"
      tile_xsize_m := xsz
      tile_ysize_m := ysz }
  { base with
    core := core2
    typename := "TG"
    x_size_px := xsz.fdiv core.sampling
    y_size_px := ysz.fdiv core.sampling
    subset_px := (0, 0, xsz.fdiv core.sampling, ysz.fdiv core.sampling) }

/-- The input check of `TPSProjection.__init__(epsg, proj4, wkt)`: Python
puts the three arguments into a `set` and discards `None`, so two arguments
carrying the same value collapse to one element.  `epsg` is an int and the
other two are strings, so only `proj4` and `wkt` can ever be equal. -/
def checkerCard (epsg : Option ℤ) (proj4 wkt : Option String) : ℕ :=
  (if epsg.isSome then 1 else 0) +
  (match proj4, wkt with
   | some p, some w => if p = w then 1 else 2
   | some _, none => 1
   | none, some _ => 1
   | none, none => 0)

/-- `TPSProjection.__init__`: raises on zero or several distinct inputs,
otherwise proceeds to resolve the spatial reference through the external
`osr` engine (opaque here, so success is `Unit`). -/
def TPSProjection.make (epsg : Option ℤ) (proj4 wkt : Option String) :
    Except String Unit :=
  if checkerCard epsg proj4 wkt = 0 then .error "Projection is not defined!"
  else if checkerCard epsg proj4 wkt ≠ 1 then
    .error "Projection is defined ambiguously!"
  else .ok ()

/-- A point of the external geometry engine, in exact coordinates. -/
abbrev QPoint := ℚ × ℚ

/-- An axis-aligned rectangle geometry `(xmin, ymin, xmax, ymax)`, the shape
`geometry.extent2polygon` builds for a rectangular extent. -/
structure QRect where
  xmin : ℚ
  ymin : ℚ
  xmax : ℚ
  ymax : ℚ
deriving DecidableEq

/-- Two closed axis-aligned rectangles have a non-empty geometric
intersection (they share at least one point; boundary touching counts).
Used to state the coverage claims about tile extents and boxes. -/
def rectsIntersect (a b : QRect) : Prop :=
  max a.xmin b.xmin ≤ min a.xmax b.xmax ∧ max a.ymin b.ymin ≤ min a.ymax b.ymax

/-- OGR point-in-polygon for a closed rectangle. -/
def pointInRect (p : QPoint) (r : QRect) : Bool :=
  decide (r.xmin ≤ p.1 ∧ p.1 ≤ r.xmax ∧ r.ymin ≤ p.2 ∧ p.2 ≤ r.ymax)

/-- OGR `Intersects` between a multipoint geometry and a rectangle. -/
def mpIntersectsRect (g : List QPoint) (r : QRect) : Bool :=
  g.any (fun p => pointInRect p r)

/-- OGR `GetEnvelope` of a multipoint, in OGR order
`(xmin, xmax, ymin, ymax)`. -/
def mpEnvelope (g : List QPoint) : ℚ × ℚ × ℚ × ℚ :=
  match g with
  | [] => (0, 0, 0, 0)
  | p :: ps =>
    (ps.foldl (fun a q => min a q.1) p.1, ps.foldl (fun a q => max a q.1) p.1,
     ps.foldl (fun a q => min a q.2) p.2, ps.foldl (fun a q => max a q.2) p.2)

/-- `TiledProjection.search_tiles_in_geometry(geom, coverland)`, for a
region of interest given as a multipoint geometry (a geometry kind the
public API builds from point lists) and a subgrid footprint modelled as a
rectangle.  The external reprojection of the intersection into the
subgrid's projected reference (`geometry.transform_geometry`, pointwise on
a multipoint; segmentization is a no-op on points) is the `transform`
parameter, and the abstract `check_tile_covers_land` is `coversLand`.
Tile names (`point2tilename`) are modelled by lower-left pairs.  The
candidate rectangle is built exactly as in the source:
`extent2polygon((x, y, x + tile_xsize_m, y + tile_xsize_m), grid_sr)` —
`tile_xsize_m` is used for the height as well. -/
def search_tiles_in_geometry (core : TPSCoreProperty)
    (polygon_geog : QRect) (geom : List QPoint)
    (transform : QPoint → QPoint) (coverland : Bool)
    (coversLand : ℤ × ℤ → Bool) : List (ℤ × ℤ) :=
  if mpIntersectsRect geom polygon_geog then
    let intersectGeo := geom.filter (fun p => pointInRect p polygon_geog)
    let intersect := intersectGeo.map transform
    let e := mpEnvelope intersect
    let x_min0 := (pyInt e.1).fdiv core.tile_xsize_m * core.tile_xsize_m
    let x_max := ((pyInt e.2.1).fdiv core.tile_xsize_m + 1) * core.tile_xsize_m
    let y_min0 := (pyInt e.2.2.1).fdiv core.tile_ysize_m * core.tile_ysize_m
    let y_max := ((pyInt e.2.2.2).fdiv core.tile_ysize_m + 1) * core.tile_ysize_m
    let x_min := if x_min0 < 0 then 0 else x_min0
    let y_min := if y_min0 < 0 then 0 else y_min0
    let xr := pyRange x_min (x_max + core.tile_xsize_m) core.tile_xsize_m
    let yr := pyRange y_min (y_max + core.tile_ysize_m) core.tile_ysize_m
    xr.flatMap (fun x => yr.filterMap (fun y =>
      let geom_tile : QRect :=
        ⟨Int.cast x, Int.cast y, Int.cast (x + core.tile_xsize_m),
         Int.cast (y + core.tile_xsize_m)⟩
      if mpIntersectsRect intersect geom_tile then
        if ¬coverland || coversLand (x, y) then some (x, y) else none
      else none))
  else []

/-- The `subgrid_ids` argument of `search_tiles_in_roi`: Python accepts
`None`, a single string, or a list of strings. -/
inductive SubgridIdsArg where
  | noArg : SubgridIdsArg
  | strArg : String → SubgridIdsArg
  | listArg : List String → SubgridIdsArg

/-- `TiledProjectionSystem.search_tiles_in_roi`: the argument validation
and dispatch skeleton.  `registered` is `self.subgrids.keys()`.  After the
two checks the source builds the ROI geometry and dispatches to the
subgrids through the external geometry engine; that continuation is the
`searchRest` parameter, applied to the validated subgrid ids.  When both
`geom_area` and `extent` are `None` the source prints an error message and
returns an empty list (no exception). -/
def search_tiles_in_roi (registered : List String)
    (geom_area : Option (List QPoint)) (extent : Option (List QPoint))
    (subgrid_ids : SubgridIdsArg)
    (searchRest : List String → List (ℤ × ℤ)) :
    Except String (List (ℤ × ℤ)) :=
  let ids := match subgrid_ids with
    | .noArg => registered
    | .strArg s => [s]
    | .listArg l => l
  if ids.all (fun i => registered.contains i) then
    if geom_area.isNone ∧ extent.isNone then .ok []
    else .ok (searchRest ids)
  else .error "Invalid argument: grid must one of the registered subgrids."

/-! ## Helper lemmas -/

theorem pyRound_intCast (n : ℤ) : pyRound (n : ℚ) = n := by
  unfold pyRound
  rw [Int.floor_intCast]
  have h : ((n : ℚ) - n) = 0 := by ring
  rw [h]
  norm_num

theorem mem_pyRange {step : ℤ} (hstep : 0 < step) (start stop u : ℤ) :
    u ∈ pyRange start stop step ↔ step ∣ (u - start) ∧ start ≤ u ∧ u < stop := by
  unfold pyRange
  rw [if_pos hstep, List.mem_map]
  constructor
  · rintro ⟨k, hk, rfl⟩
    rw [List.mem_range, Int.lt_toNat,
      Int.fdiv_eq_ediv _ (le_of_lt hstep)] at hk
    refine ⟨⟨k, by ring⟩, ?_, ?_⟩
    · have h0 : (0 : ℤ) ≤ (k : ℤ) * step :=
        mul_nonneg (Int.ofNat_nonneg k) (le_of_lt hstep)
      linarith
    · have h1 : ((k : ℤ) + 1) * step ≤ stop - start + step - 1 :=
        (Int.le_ediv_iff_mul_le hstep).mp hk
      have h2 : ((k : ℤ) + 1) * step = (k : ℤ) * step + step := by ring
      linarith
  · rintro ⟨⟨c, hc⟩, hle, hlt⟩
    have hc0 : 0 ≤ c := by
      by_contra hneg
      push_neg at hneg
      have h3 : step * c ≤ step * (-1) :=
        mul_le_mul_of_nonneg_left (by omega) (le_of_lt hstep)
      omega
    refine ⟨c.toNat, ?_, ?_⟩
    · rw [List.mem_range, Int.lt_toNat, Int.toNat_of_nonneg hc0,
        Int.fdiv_eq_ediv _ (le_of_lt hstep)]
      have h4 : (c + 1) * step ≤ stop - start + step - 1 := by
        have h5 : (c + 1) * step = step * c + step := by ring
        omega
      have h6 : c + 1 ≤ (stop - start + step - 1) / step :=
        (Int.le_ediv_iff_mul_le hstep).mpr h4
      omega
    · rw [Int.toNat_of_nonneg hc0]
      have h7 : c * step = step * c := by ring
      omega

theorem length_pyRange {step : ℤ} (hstep : 0 < step) (start stop : ℤ) :
    (pyRange start stop step).length =
      ((stop - start + step - 1).fdiv step).toNat := by
  unfold pyRange
  rw [if_pos hstep, List.length_map, List.length_range]

theorem mem_product_pairs {α β : Type} (xs : List α) (ys : List β)
    (u : α) (v : β) :
    (u, v) ∈ ys.flatMap (fun y => xs.map (fun x => (x, y))) ↔
      u ∈ xs ∧ v ∈ ys := by
  simp only [List.mem_flatMap, List.mem_map, Prod.mk.injEq]
  constructor
  · rintro ⟨y, hy, x, hx, rfl, rfl⟩
    exact ⟨hx, hy⟩
  · rintro ⟨hu, hv⟩
    exact ⟨v, hv, u, hu, rfl, rfl⟩

theorem length_product_pairs {α β : Type} (xs : List α) (ys : List β) :
    (ys.flatMap (fun y => xs.map (fun x => (x, y)))).length =
      ys.length * xs.length := by
  induction ys with
  | nil => simp
  | cons y ys ih =>
    simp only [List.flatMap_cons, List.length_append, List.length_map,
      List.length_cons, ih]
    ring

/-- Membership in one axis range of `identify_tiles_overlapping_xybbox`:
the lower-left multiples `u` of `t` enumerated for the closed interval
`[zmin, zmax]` are exactly those with `u ≤ zmax` and `zmin < u + t`,
i.e. whose half-open cell `[u, u + t)` meets `[zmin, zmax]`. -/
theorem mem_llrange {t : ℤ} (ht : 0 < t) (zmin zmax u : ℤ) :
    u ∈ pyRange (zmin.fdiv t * t) (zmax.fdiv t * t + 1) t ↔
      t ∣ u ∧ u ≤ zmax ∧ zmin < u + t := by
  have htn : (0 : ℤ) ≤ t := le_of_lt ht
  have ht0 : t ≠ 0 := ne_of_gt ht
  rw [mem_pyRange ht, Int.fdiv_eq_ediv _ htn, Int.fdiv_eq_ediv _ htn]
  have hdvd : t ∣ zmin / t * t := dvd_mul_left t _
  constructor
  · rintro ⟨hd, hge, hlt⟩
    have hu : t ∣ u := by
      have h2 : u = (u - zmin / t * t) + zmin / t * t := by ring
      rw [h2]
      exact dvd_add hd hdvd
    obtain ⟨c, rfl⟩ := hu
    refine ⟨Dvd.intro _ rfl, ?_, ?_⟩
    · have h4 : zmax / t * t ≤ zmax := Int.ediv_mul_le zmax ht0
      omega
    · have h5 : zmin / t ≤ c := by
        have h6 : zmin / t * t ≤ c * t := by
          have h7 : t * c = c * t := by ring
          omega
        exact le_of_mul_le_mul_right h6 ht
      have h8 : zmin < (zmin / t + 1) * t := Int.lt_ediv_add_one_mul_self zmin ht
      have h9 : (zmin / t + 1) * t ≤ (c + 1) * t :=
        mul_le_mul_of_nonneg_right (by omega) htn
      have h10 : (c + 1) * t = t * c + t := by ring
      omega
  · rintro ⟨⟨c, rfl⟩, hle, hgt⟩
    refine ⟨dvd_sub (Dvd.intro c rfl) hdvd, ?_, ?_⟩
    · have h11 : zmin / t ≤ c := by
        by_contra hcon
        push_neg at hcon
        have h12 : (c + 1) * t ≤ zmin :=
          (Int.le_ediv_iff_mul_le ht).mp (by omega)
        have h13 : (c + 1) * t = t * c + t := by ring
        omega
      have h14 : zmin / t * t ≤ c * t :=
        mul_le_mul_of_nonneg_right h11 htn
      have h15 : t * c = c * t := by ring
      omega
    · have h15 : t * c = c * t := by ring
      have h16 : c ≤ zmax / t :=
        (Int.le_ediv_iff_mul_le ht).mpr (by omega)
      have h17 : c * t ≤ zmax / t * t :=
        mul_le_mul_of_nonneg_right h16 htn
      omega

/-- On a lattice of step `t`, a strict bound by one extra step collapses to
a closed bound: for `t ∣ w` and `t ∣ u`, `w < u + t ↔ w ≤ u`. -/
theorem lt_add_step_iff_le {t u w : ℤ} (ht : 0 < t) (hw : t ∣ w)
    (hu : t ∣ u) : w < u + t ↔ w ≤ u := by
  obtain ⟨a, rfl⟩ := hw
  obtain ⟨b, rfl⟩ := hu
  have h1 : t * a < t * (b + 1) ↔ a < b + 1 := mul_lt_mul_left ht
  have h2 : t * a ≤ t * b ↔ a ≤ b := mul_le_mul_left ht
  have hr : t * b + t = t * (b + 1) := by ring
  constructor
  · intro h
    have h3 : a < b + 1 := h1.mp (by omega)
    exact h2.mpr (by omega)
  · intro h
    have h4 : a ≤ b := h2.mp h
    have h5 : t * a < t * (b + 1) := h1.mpr (by omega)
    omega

/-! ## Claim theorems -/

/-- C1 (counterexample): take unit tile steps and the box `[0, 0, 1, 1]`.
The tile with lower-left `(-1, 0)` has closed extent `[-1, 0] × [0, 1]`,
which has a non-empty intersection with the box (they share the segment
`{0} × [0, 1]`, boundary touching), yet `identify_tiles_overlapping_xybbox`
returns only the four tiles with lower-left in `{0, 1} × {0, 1}`: an
intersecting tile is omitted, refuting the claimed equivalence. -/
theorem identify_tiles_omits_touching_tile :
    rectsIntersect ⟨-1, 0, 0, 1⟩ ⟨0, 0, 1, 1⟩ ∧
    (TilingSystem.make ⟨"SG", none, 1, "T1", 1, 1⟩ 0 0).identify_tiles_overlapping_xybbox
        0 0 1 1 = Except.ok [(0, 0), (1, 0), (0, 1), (1, 1)] ∧
    ((-1 : ℤ), (0 : ℤ)) ∉ [((0 : ℤ), (0 : ℤ)), (1, 0), (0, 1), (1, 1)] := by
  refine ⟨⟨by norm_num, by norm_num⟩, by rfl, by decide⟩

/-- C1 (amended): for positive tile steps and a valid box, a tile name
`(u, v)` is returned by `identify_tiles_overlapping_xybbox` iff the tile's
HALF-OPEN extent `[u, u + tile_xsize_m) × [v, v + tile_ysize_m)` meets the
closed box, i.e. `u ≤ xmax ∧ xmin < u + tile_xsize_m` (and likewise for
`v`): a tile touching the box only at `xmin`/`ymin` is omitted, while one
touching only at `xmax`/`ymax` is included. -/
theorem identify_tiles_overlapping_xybbox_halfopen (s : TilingSystem)
    (htx : 0 < s.core.tile_xsize_m) (hty : 0 < s.core.tile_ysize_m)
    (xmin ymin xmax ymax : ℤ) (l : List (ℤ × ℤ))
    (hl : s.identify_tiles_overlapping_xybbox xmin ymin xmax ymax =
      Except.ok l) (u v : ℤ) :
    (u, v) ∈ l ↔
      (s.core.tile_xsize_m ∣ u ∧ u ≤ xmax ∧ xmin < u + s.core.tile_xsize_m) ∧
      (s.core.tile_ysize_m ∣ v ∧ v ≤ ymax ∧ ymin < v + s.core.tile_ysize_m) := by
  unfold TilingSystem.identify_tiles_overlapping_xybbox at hl
  by_cases hcond : xmin ≥ xmax ∨ ymin ≥ ymax
  · rw [if_pos hcond] at hl
    exact absurd hl (by simp)
  · rw [if_neg hcond] at hl
    simp only [Except.ok.injEq] at hl
    subst hl
    simp only [mem_product_pairs, mem_llrange htx, mem_llrange hty]

/-- Witness for the amended C1 theorem at the unit-step system, the box
`[0, 0, 1, 1]` and the tile `(1, 1)`. -/
theorem identify_tiles_overlapping_xybbox_halfopen_w :
    (((1 : ℤ), (1 : ℤ)) ∈ [((0 : ℤ), (0 : ℤ)), (1, 0), (0, 1), (1, 1)]) ↔
      (((1 : ℤ) ∣ 1 ∧ (1 : ℤ) ≤ 1 ∧ (0 : ℤ) < 1 + 1) ∧
       ((1 : ℤ) ∣ 1 ∧ (1 : ℤ) ≤ 1 ∧ (0 : ℤ) < 1 + 1)) :=
  identify_tiles_overlapping_xybbox_halfopen
    (TilingSystem.make ⟨"SG", none, 1, "T1", 1, 1⟩ 0 0) (by decide) (by decide)
    0 0 1 1 [(0, 0), (1, 0), (0, 1), (1, 1)] (by rfl) 1 1

/-- C2 (counterexample): the box `[0, 0, 1, 1]` is exactly aligned to the
unit tile grid, yet `identify_tiles_overlapping_xybbox` returns 4 tiles,
not the `((1 - 0) / 1) * ((1 - 0) / 1) = 1` covering tile the claim
demands: the boundary-touching column at `x = xmax` and row at `y = ymax`
are extra. -/
theorem identify_tiles_aligned_box_extra :
    (TilingSystem.make ⟨"SG", none, 1, "T1", 1, 1⟩ 0 0).identify_tiles_overlapping_xybbox
        0 0 1 1 = Except.ok [(0, 0), (1, 0), (0, 1), (1, 1)] ∧
    (([((0 : ℤ), (0 : ℤ)), (1, 0), (0, 1), (1, 1)].length : ℕ) : ℤ) ≠
      ((1 - 0) / 1) * ((1 - 0) / 1) := by
  refine ⟨by rfl, by decide⟩

/-- C2 (amended): for a box exactly aligned to tile edges,
`identify_tiles_overlapping_xybbox` returns exactly the tiles with
lower-left multiples in the CLOSED ranges `[xmin, xmax] × [ymin, ymax]` —
that is, `((xmax - xmin) / tile_xsize_m + 1) * ((ymax - ymin) /
tile_ysize_m + 1)` tiles: the covering tiles plus one extra
boundary-touching column at `x = xmax` and row at `y = ymax`. -/
theorem identify_tiles_overlapping_xybbox_aligned (s : TilingSystem)
    (htx : 0 < s.core.tile_xsize_m) (hty : 0 < s.core.tile_ysize_m)
    (xmin ymin xmax ymax : ℤ)
    (hdx1 : s.core.tile_xsize_m ∣ xmin) (hdx2 : s.core.tile_xsize_m ∣ xmax)
    (hdy1 : s.core.tile_ysize_m ∣ ymin) (hdy2 : s.core.tile_ysize_m ∣ ymax)
    (l : List (ℤ × ℤ))
    (hl : s.identify_tiles_overlapping_xybbox xmin ymin xmax ymax =
      Except.ok l) :
    (∀ u v : ℤ, (u, v) ∈ l ↔
      (s.core.tile_xsize_m ∣ u ∧ xmin ≤ u ∧ u ≤ xmax) ∧
      (s.core.tile_ysize_m ∣ v ∧ ymin ≤ v ∧ v ≤ ymax)) ∧
    ((l.length : ℕ) : ℤ) =
      ((xmax - xmin) / s.core.tile_xsize_m + 1) *
      ((ymax - ymin) / s.core.tile_ysize_m + 1) := by
  have htx0 : s.core.tile_xsize_m ≠ 0 := ne_of_gt htx
  have hty0 : s.core.tile_ysize_m ≠ 0 := ne_of_gt hty
  unfold TilingSystem.identify_tiles_overlapping_xybbox at hl
  by_cases hcond : xmin ≥ xmax ∨ ymin ≥ ymax
  · rw [if_pos hcond] at hl
    exact absurd hl (by simp)
  · rw [if_neg hcond] at hl
    push_neg at hcond
    obtain ⟨hx, hy⟩ := hcond
    simp only [Except.ok.injEq] at hl
    subst hl
    constructor
    · intro u v
      simp only [mem_product_pairs, mem_llrange htx, mem_llrange hty]
      constructor
      · rintro ⟨⟨hdu, h1, h2⟩, hdv, h3, h4⟩
        exact ⟨⟨hdu, (lt_add_step_iff_le htx hdx1 hdu).mp h2, h1⟩,
               ⟨hdv, (lt_add_step_iff_le hty hdy1 hdv).mp h4, h3⟩⟩
      · rintro ⟨⟨hdu, h1, h2⟩, hdv, h3, h4⟩
        exact ⟨⟨hdu, h2, (lt_add_step_iff_le htx hdx1 hdu).mpr h1⟩,
               ⟨hdv, h4, (lt_add_step_iff_le hty hdy1 hdv).mpr h3⟩⟩
    · obtain ⟨m, rfl⟩ := hdx1
      obtain ⟨M, rfl⟩ := hdx2
      obtain ⟨n, rfl⟩ := hdy1
      obtain ⟨N, rfl⟩ := hdy2
      have hmM : m < M := lt_of_mul_lt_mul_left hx (le_of_lt htx)
      have hnN : n < N := lt_of_mul_lt_mul_left hy (le_of_lt hty)
      simp only [length_product_pairs, length_pyRange htx, length_pyRange hty]
      rw [Int.mul_fdiv_cancel_left m htx0, Int.mul_fdiv_cancel_left M htx0,
        Int.mul_fdiv_cancel_left n hty0, Int.mul_fdiv_cancel_left N hty0]
      have e1 : M * s.core.tile_xsize_m + 1 - m * s.core.tile_xsize_m +
          s.core.tile_xsize_m - 1 = (M - m + 1) * s.core.tile_xsize_m := by
        ring
      have e2 : N * s.core.tile_ysize_m + 1 - n * s.core.tile_ysize_m +
          s.core.tile_ysize_m - 1 = (N - n + 1) * s.core.tile_ysize_m := by
        ring
      rw [e1, e2, Int.mul_fdiv_cancel _ htx0, Int.mul_fdiv_cancel _ hty0]
      have e3 : s.core.tile_xsize_m * M - s.core.tile_xsize_m * m =
          (M - m) * s.core.tile_xsize_m := by ring
      have e4 : s.core.tile_ysize_m * N - s.core.tile_ysize_m * n =
          (N - n) * s.core.tile_ysize_m := by ring
      rw [e3, e4, Int.mul_ediv_cancel _ htx0, Int.mul_ediv_cancel _ hty0]
      push_cast
      rw [Int.toNat_of_nonneg (by omega), Int.toNat_of_nonneg (by omega)]
      ring

/-- Witness for the amended C2 theorem at the unit-step system and the
aligned box `[0, 0, 1, 1]`. -/
theorem identify_tiles_overlapping_xybbox_aligned_w :
    (∀ u v : ℤ, ((u, v) ∈ [((0 : ℤ), (0 : ℤ)), (1, 0), (0, 1), (1, 1)]) ↔
      (((1 : ℤ) ∣ u ∧ 0 ≤ u ∧ u ≤ 1) ∧ ((1 : ℤ) ∣ v ∧ 0 ≤ v ∧ v ≤ 1))) ∧
    (([((0 : ℤ), (0 : ℤ)), (1, 0), (0, 1), (1, 1)].length : ℕ) : ℤ) =
      ((1 - 0) / 1 + 1) * ((1 - 0) / 1 + 1) :=
  identify_tiles_overlapping_xybbox_aligned
    (TilingSystem.make ⟨"SG", none, 1, "T1", 1, 1⟩ 0 0) (by decide) (by decide)
    0 0 1 1 (by decide) (by decide) (by decide) (by decide)
    [(0, 0), (1, 0), (0, 1), (1, 1)] (by rfl)

/-- Closed form of `ij2xy`: `(llx + i·sampling, lly + tile_ysize_m -
j·sampling)` (the geotransform's rotation terms are zero). -/
theorem ij2xy_eq (t : Tile) (i j : ℤ) :
    t.ij2xy i j = (t.llx + i * t.core.sampling,
      t.lly + t.core.tile_ysize_m - j * t.core.sampling) := by
  simp only [Tile.ij2xy, Tile.geotransform, Prod.mk.injEq]
  constructor <;> ring

/-- C3: for a tile with integer sampling `≥ 1` and any in-bounds pixel
index pair `(i, j)`, converting to projected coordinates with `ij2xy` and
back with `xy2ij` is the identity. -/
theorem xy2ij_ij2xy_roundtrip (t : Tile) (hs : 1 ≤ t.core.sampling)
    (i j : ℤ) (hi0 : 0 ≤ i) (hi1 : i < t.x_size_px)
    (hj0 : 0 ≤ j) (hj1 : j < t.y_size_px) :
    t.xy2ij (Int.cast (t.ij2xy i j).1) (Int.cast (t.ij2xy i j).2) = (i, j) := by
  have hs0 : ((t.core.sampling : ℤ) : ℚ) ≠ 0 := by
    have h1 : (0 : ℤ) < t.core.sampling := lt_of_lt_of_le zero_lt_one hs
    exact_mod_cast ne_of_gt h1
  have key : ∀ (q : ℚ) (n : ℤ), q = (n : ℚ) → pyRound q = n := by
    intro q n hq
    rw [hq, pyRound_intCast]
  rw [ij2xy_eq]
  simp only [Tile.xy2ij, Tile.geotransform, Prod.mk.injEq]
  constructor
  · apply key
    push_cast
    field_simp
    ring
  · apply key
    push_cast
    field_simp
    ring

/-- Witness for the C3 round-trip at a concrete tile (sampling 2, tile
6 × 4, lower-left (10, 20)) and pixel `(1, 1)`. -/
theorem xy2ij_ij2xy_roundtrip_w :
    (1 : ℤ) ≤ 2 ∧ (0 : ℤ) ≤ 1 ∧
    (1 : ℤ) < (Tile.make ⟨"SG", none, 2, "T1", 6, 4⟩ (0, 0) 10 20).x_size_px ∧
    (1 : ℤ) < (Tile.make ⟨"SG", none, 2, "T1", 6, 4⟩ (0, 0) 10 20).y_size_px ∧
    (Tile.make ⟨"SG", none, 2, "T1", 6, 4⟩ (0, 0) 10 20).xy2ij
      (Int.cast ((Tile.make ⟨"SG", none, 2, "T1", 6, 4⟩ (0, 0) 10 20).ij2xy 1 1).1)
      (Int.cast ((Tile.make ⟨"SG", none, 2, "T1", 6, 4⟩ (0, 0) 10 20).ij2xy 1 1).2) =
      (1, 1) :=
  ⟨by decide, by decide, by decide, by decide,
   xy2ij_ij2xy_roundtrip (Tile.make ⟨"SG", none, 2, "T1", 6, 4⟩ (0, 0) 10 20)
     (by decide) 1 1 (by decide) (by decide) (by decide) (by decide)⟩

/-- C4 (counterexample): a tiling system with origin `(x0, y0) = (1, 1)`
and steps 2.  `round_xy2lowerleft 0 0` returns `(0, 0)`, while the claimed
formula `(x0 + ⌊(x - x0)/xstep⌋·xstep, y0 + ⌊(y - y0)/ystep⌋·ystep)` gives
`(-1, -1)`: the stored origin is ignored by the code. -/
theorem round_xy2lowerleft_ignores_origin :
    (TilingSystem.make ⟨"SG", none, 1, "T2", 2, 2⟩ 1 1).round_xy2lowerleft 0 0 ≠
      ((TilingSystem.make ⟨"SG", none, 1, "T2", 2, 2⟩ 1 1).x0 +
        ((0 : ℤ) - (TilingSystem.make ⟨"SG", none, 1, "T2", 2, 2⟩ 1 1).x0).fdiv
            (TilingSystem.make ⟨"SG", none, 1, "T2", 2, 2⟩ 1 1).xstep *
          (TilingSystem.make ⟨"SG", none, 1, "T2", 2, 2⟩ 1 1).xstep,
       (TilingSystem.make ⟨"SG", none, 1, "T2", 2, 2⟩ 1 1).y0 +
        ((0 : ℤ) - (TilingSystem.make ⟨"SG", none, 1, "T2", 2, 2⟩ 1 1).y0).fdiv
            (TilingSystem.make ⟨"SG", none, 1, "T2", 2, 2⟩ 1 1).ystep *
          (TilingSystem.make ⟨"SG", none, 1, "T2", 2, 2⟩ 1 1).ystep) := by
  decide

/-- C4 (amended): `round_xy2lowerleft` returns, on each axis, the unique
multiple of the step size that contains the point in its half-open cell —
the floor formula of the claim with the origin terms absent (equivalently,
the claim holds exactly when `x0` and `y0` are multiples of the steps). -/
theorem round_xy2lowerleft_floor (s : TilingSystem)
    (htx : 0 < s.core.tile_xsize_m) (hty : 0 < s.core.tile_ysize_m)
    (x y : ℤ) :
    s.core.tile_xsize_m ∣ (s.round_xy2lowerleft x y).1 ∧
    (s.round_xy2lowerleft x y).1 ≤ x ∧
    x < (s.round_xy2lowerleft x y).1 + s.core.tile_xsize_m ∧
    s.core.tile_ysize_m ∣ (s.round_xy2lowerleft x y).2 ∧
    (s.round_xy2lowerleft x y).2 ≤ y ∧
    y < (s.round_xy2lowerleft x y).2 + s.core.tile_ysize_m := by
  have htx0 : s.core.tile_xsize_m ≠ 0 := ne_of_gt htx
  have hty0 : s.core.tile_ysize_m ≠ 0 := ne_of_gt hty
  simp only [TilingSystem.round_xy2lowerleft,
    Int.fdiv_eq_ediv _ (le_of_lt htx), Int.fdiv_eq_ediv _ (le_of_lt hty)]
  have hx1 : x / s.core.tile_xsize_m * s.core.tile_xsize_m ≤ x :=
    Int.ediv_mul_le x htx0
  have hx2 : x < (x / s.core.tile_xsize_m + 1) * s.core.tile_xsize_m :=
    Int.lt_ediv_add_one_mul_self x htx
  have hx3 : (x / s.core.tile_xsize_m + 1) * s.core.tile_xsize_m =
      x / s.core.tile_xsize_m * s.core.tile_xsize_m + s.core.tile_xsize_m := by
    ring
  have hy1 : y / s.core.tile_ysize_m * s.core.tile_ysize_m ≤ y :=
    Int.ediv_mul_le y hty0
  have hy2 : y < (y / s.core.tile_ysize_m + 1) * s.core.tile_ysize_m :=
    Int.lt_ediv_add_one_mul_self y hty
  have hy3 : (y / s.core.tile_ysize_m + 1) * s.core.tile_ysize_m =
      y / s.core.tile_ysize_m * s.core.tile_ysize_m + s.core.tile_ysize_m := by
    ring
  exact ⟨dvd_mul_left _ _, hx1, by omega, dvd_mul_left _ _, hy1, by omega⟩

/-- Witness for the amended C4 theorem at steps `(2, 2)` and the point
`(5, -3)`: the result `(4, -4)` consists of step multiples whose half-open
cells contain the point. -/
theorem round_xy2lowerleft_floor_w :
    (2 : ℤ) ∣ ((TilingSystem.make ⟨"SG", none, 1, "T2", 2, 2⟩ 0 0).round_xy2lowerleft 5 (-3)).1 ∧
    ((TilingSystem.make ⟨"SG", none, 1, "T2", 2, 2⟩ 0 0).round_xy2lowerleft 5 (-3)).1 ≤ 5 ∧
    (5 : ℤ) < ((TilingSystem.make ⟨"SG", none, 1, "T2", 2, 2⟩ 0 0).round_xy2lowerleft 5 (-3)).1 + 2 ∧
    (2 : ℤ) ∣ ((TilingSystem.make ⟨"SG", none, 1, "T2", 2, 2⟩ 0 0).round_xy2lowerleft 5 (-3)).2 ∧
    ((TilingSystem.make ⟨"SG", none, 1, "T2", 2, 2⟩ 0 0).round_xy2lowerleft 5 (-3)).2 ≤ -3 ∧
    (-3 : ℤ) < ((TilingSystem.make ⟨"SG", none, 1, "T2", 2, 2⟩ 0 0).round_xy2lowerleft 5 (-3)).2 + 2 :=
  round_xy2lowerleft_floor (TilingSystem.make ⟨"SG", none, 1, "T2", 2, 2⟩ 0 0)
    (by decide) (by decide) 5 (-3)

/-- C7: the `active_subset_px` setter succeeds exactly on limits with
`0 ≤ xmin < xmax ≤ x_size_px` and `0 ≤ ymin < ymax ≤ y_size_px`; on
success the stored subset is replaced by the given limits and nothing else
changes, and on any violated bound it fails with a range error (the input
tile being untouched in this pure embedding). -/
theorem active_subset_px_setter_spec (t : Tile) (xmin ymin xmax ymax : ℤ) :
    ((0 ≤ xmin ∧ xmin < xmax ∧ xmax ≤ t.x_size_px ∧
      0 ≤ ymin ∧ ymin < ymax ∧ ymax ≤ t.y_size_px) →
        t.setActiveSubsetPx xmin ymin xmax ymax =
          Except.ok { t with subset_px := (xmin, ymin, xmax, ymax) }) ∧
    (∀ t2 : Tile, t.setActiveSubsetPx xmin ymin xmax ymax = Except.ok t2 →
      (0 ≤ xmin ∧ xmin < xmax ∧ xmax ≤ t.x_size_px ∧
       0 ≤ ymin ∧ ymin < ymax ∧ ymax ≤ t.y_size_px) ∧
      t2 = { t with subset_px := (xmin, ymin, xmax, ymax) }) := by
  unfold Tile.setActiveSubsetPx
  split_ifs with h1 h2 h3 h4 h5 h6 <;>
    refine ⟨fun hc => ?_, fun t2 ht => ?_⟩ <;>
    first
      | omega
      | exact False.elim ht
      | rfl
      | exact ⟨by omega, (Except.ok.inj ht).symm⟩

/-- Witness for C7 at a 2 × 2-pixel tile and the valid limits
`(0, 0, 1, 1)`. -/
theorem active_subset_px_setter_spec_w :
    (Tile.make ⟨"SG", none, 1, "T1", 2, 2⟩ (0, 0) 0 0).setActiveSubsetPx 0 0 1 1 =
      Except.ok { Tile.make ⟨"SG", none, 1, "T1", 2, 2⟩ (0, 0) 0 0 with
                  subset_px := (0, 0, 1, 1) } :=
  (active_subset_px_setter_spec
    (Tile.make ⟨"SG", none, 1, "T1", 2, 2⟩ (0, 0) 0 0) 0 0 1 1).1 (by decide)

/-- C5 (code bug): `search_tiles_in_geometry` tests candidate tiles
against the rectangle `(x, y, x + tile_xsize_m, y + tile_xsize_m)` — the
height is built from `tile_xsize_m` instead of `tile_ysize_m`, unlike the
tile extent `Tile.limits_m`.  With sampling 1, tile size 3 × 1, a footprint
covering everything, the identity reprojection and the multipoint ROI
`{(0, 5), (7, 2)}`, the tile named `(0, 2)` is returned although its true
extent `[0, 3] × [2, 3]` is disjoint from the reprojected intersection
(which is the ROI itself): the claimed soundness fails on the code. -/
theorem search_tiles_in_geometry_false_positive :
    ((0, 2) ∈ search_tiles_in_geometry ⟨"SG", none, 1, "T1", 3, 1⟩
      ⟨-10, -10, 10, 10⟩ [((0 : ℚ), (5 : ℚ)), ((7 : ℚ), (2 : ℚ))]
      (fun p => p) false (fun _ => false)) ∧
    mpIntersectsRect
      (([((0 : ℚ), (5 : ℚ)), ((7 : ℚ), (2 : ℚ))].filter
        (fun p => pointInRect p ⟨-10, -10, 10, 10⟩)).map (fun p => p))
      ⟨0, 2, 3, 3⟩ = false := by
  refine ⟨by decide, by decide⟩

/-- C6 (code bug): for the tile-aligned box `[0, 0, 2, 2]` on a 2 × 2 tile
grid with sampling 1, `identify_tiles_overlapping_xybbox` includes the
boundary-touching tile `(2, 0)`; clipping its active subset to the box
yields the empty pixel window `(0, 0, 0, 2)`, which the subset setter
rejects, so `create_tiles_overlapping_xybbox` raises `ValueError` instead
of returning one tile per name. -/
theorem create_tiles_overlapping_xybbox_raises :
    (TilingSystem.make ⟨"SG", none, 1, "T2", 2, 2⟩ 0 0).identify_tiles_overlapping_xybbox
        0 0 2 2 = Except.ok [(0, 0), (2, 0), (0, 2), (2, 2)] ∧
    (TilingSystem.make ⟨"SG", none, 1, "T2", 2, 2⟩ 0 0).create_tiles_overlapping_xybbox
        0 0 2 2 = Except.error "xmin >= xmax!" := by
  refine ⟨by rfl, by rfl⟩

/-- C8 (counterexample): constructing a `GlobalTile` over the shared core
record with sampling 1, tile sizes 5 × 5 and the subgrid bbox
`(0, 3, 0, 2)` overwrites the shared core's `tiletype` (to `"TG"`),
`tile_xsize_m` (to 3) and `tile_ysize_m` (to 2): the core record does not
stay unchanged, refuting the claimed frame property. -/
theorem globalTile_mutates_core :
    (GlobalTile.make ⟨"SG", none, 1, "T1", 5, 5⟩ (0, 0) 0 3 0 2).core ≠
      ⟨"SG", none, 1, "T1", 5, 5⟩ := by
  simp [GlobalTile.make, Tile.make, TPSCoreProperty.mk.injEq]

/-- C8 (amended): constructing a plain `Tile` leaves the shared core record
unchanged; constructing a `GlobalTile` preserves `tag`, `projection` and
`sampling` but overwrites `tiletype` and the two tile-size fields with
values derived from the subgrid bbox. -/
theorem tile_ctors_core_frame (core : TPSCoreProperty) (name : ℤ × ℤ)
    (xll yll : ℤ) (bxmin bxmax bymin bymax : ℚ) :
    (Tile.make core name xll yll).core = core ∧
    (GlobalTile.make core name bxmin bxmax bymin bymax).core.tag = core.tag ∧
    (GlobalTile.make core name bxmin bxmax bymin bymax).core.projection =
      core.projection ∧
    (GlobalTile.make core name bxmin bxmax bymin bymax).core.sampling =
      core.sampling ∧
    (GlobalTile.make core name bxmin bxmax bymin bymax).core.tiletype =
      "TG" :=
  ⟨rfl, rfl, rfl, rfl, rfl⟩

/-- C9 (counterexample): giving BOTH `proj4` and `wkt`, with equal string
values, is "more than one input", yet Python's set-based check collapses
the two to a single element and the constructor proceeds without raising
the ambiguity error. -/
theorem tpsProjection_equal_inputs_accepted :
    TPSProjection.make none (some "+proj=longlat") (some "+proj=longlat") =
      Except.ok () := by
  rfl

/-- C9 (amended): the constructor fails with the undefined-input error iff
no argument is given, proceeds iff the given arguments collapse to exactly
one distinct value (one argument alone, or `proj4 = wkt` given together),
and fails with the ambiguity error in every other case. -/
theorem tpsProjection_input_check (epsg : Option ℤ) (proj4 wkt : Option String) :
    (TPSProjection.make epsg proj4 wkt = Except.ok () ↔
      ((epsg.isSome ∧ proj4 = none ∧ wkt = none) ∨
       (epsg = none ∧ proj4.isSome ∧ wkt = none) ∨
       (epsg = none ∧ proj4 = none ∧ wkt.isSome) ∨
       (epsg = none ∧ ∃ v, proj4 = some v ∧ wkt = some v))) ∧
    (epsg = none ∧ proj4 = none ∧ wkt = none →
      TPSProjection.make epsg proj4 wkt =
        Except.error "Projection is not defined!") := by
  constructor
  · unfold TPSProjection.make checkerCard
    cases epsg <;> cases proj4 <;> cases wkt <;>
      simp_all <;>
      (rename_i p w
       by_cases hpw : p = w <;> simp [hpw] <;>
         exact fun h => hpw h.symm)
  · rintro ⟨rfl, rfl, rfl⟩
    rfl

/-- C10: calling `search_tiles_in_roi` with both `geom_area` and `extent`
omitted and a valid `subgrid_ids` argument (omitted, one registered id, or
a list of registered ids) returns the empty list normally, without
raising. -/
theorem search_tiles_in_roi_no_roi_empty (registered : List String)
    (subgrid_ids : SubgridIdsArg)
    (hvalid : subgrid_ids = SubgridIdsArg.noArg ∨
      (∃ s, subgrid_ids = SubgridIdsArg.strArg s ∧ s ∈ registered) ∨
      (∃ l, subgrid_ids = SubgridIdsArg.listArg l ∧ ∀ i ∈ l, i ∈ registered))
    (searchRest : List String → List (ℤ × ℤ)) :
    search_tiles_in_roi registered none none subgrid_ids searchRest =
      Except.ok [] := by
  unfold search_tiles_in_roi
  rcases hvalid with rfl | ⟨s, rfl, hs⟩ | ⟨l, rfl, hl⟩
  · rw [if_pos, if_pos ⟨rfl, rfl⟩]
    simp [List.all_eq_true]
  · rw [if_pos, if_pos ⟨rfl, rfl⟩]
    simp [List.all_eq_true, hs]
  · rw [if_pos, if_pos ⟨rfl, rfl⟩]
    simp only [List.all_eq_true, List.contains, List.elem_eq_mem,
      decide_eq_true_eq]
    exact hl

/-- Witness for C10 with two registered subgrids and a singleton id list. -/
theorem search_tiles_in_roi_no_roi_empty_w :
    (SubgridIdsArg.listArg ["EU"] = SubgridIdsArg.noArg ∨
      (∃ s, SubgridIdsArg.listArg ["EU"] = SubgridIdsArg.strArg s ∧
        s ∈ ["EU", "AF"]) ∨
      (∃ l, SubgridIdsArg.listArg ["EU"] = SubgridIdsArg.listArg l ∧
        ∀ i ∈ l, i ∈ ["EU", "AF"])) ∧
    search_tiles_in_roi ["EU", "AF"] none none
      (SubgridIdsArg.listArg ["EU"]) (fun _ => []) = Except.ok [] :=
  ⟨Or.inr (Or.inr ⟨["EU"], rfl, by decide⟩),
   search_tiles_in_roi_no_roi_empty ["EU", "AF"] (SubgridIdsArg.listArg ["EU"])
     (Or.inr (Or.inr ⟨["EU"], rfl, by decide⟩)) (fun _ => [])⟩

end PyTileProj
